import Mathlib

/-!
Verification of the slide-generation pipeline
(`generate_slides.py`, `generate_speaker_notes.py`, `generate_video.py`).

The Python sources are shallowly embedded: strings are Lean `String`
(a structure over `List Char`, matching Python's sequence-of-characters
view), Python dicts are association lists looked up with `List.lookup`,
and external effects (vision model, TTS, ffmpeg subprocesses) are
recorded symbolically as call traces or abstracted as oracle functions.
-/

namespace SlideGen

/-- Python `str.isspace` character class used by `str.strip()`:
space, tab, newline, carriage return, vertical tab, form feed. -/
def pyIsSpace (c : Char) : Bool :=
  c = ' ' || c = '\t' || c = '\n' || c = '\r' || c = '\x0b' || c = '\x0c'

/-- Python `str.strip()`: remove leading and trailing whitespace. -/
def pyStrip (s : String) : String :=
  String.mk (((s.data.dropWhile pyIsSpace).reverse.dropWhile pyIsSpace).reverse)

/-- Decimal digit character, as produced by Python's `f"{n}"` formatting. -/
def decDigit : Nat → Char
  | 0 => '0' | 1 => '1' | 2 => '2' | 3 => '3' | 4 => '4'
  | 5 => '5' | 6 => '6' | 7 => '7' | 8 => '8' | _ => '9'

/-- Core of the decimal rendering, structurally recursive on a fuel
bound; a number `n` has at most `n + 1` decimal digits, so the fuel
passed by `decDigits` never runs out. -/
def decDigitsCore : Nat → Nat → List Char
  | 0, _ => []
  | fuel + 1, n =>
    if n < 10 then [decDigit n]
    else decDigitsCore fuel (n / 10) ++ [decDigit (n % 10)]

/-- Decimal digit string of a natural number (most significant first). -/
def decDigits (n : Nat) : List Char := decDigitsCore (n + 1) n

/-- Decimal rendering of a natural number, the embedding of Python's
`f"{n}"` / `str(n)` formatting. -/
def decRepr (n : Nat) : String := String.mk (decDigits n)

/-- Placeholder message returned when one slide's narration generation
fails (`generate_speaker_notes.py`, line 114). -/
def couldNotGenerateMsg (slideNumber : Nat) : String :=
  "スライド " ++ decRepr slideNumber ++ " の原稿を生成できませんでした。"

/-- `generate_speaker_notes.py`, `generate_script_from_image`, lines 92-114:
the vision-model call is abstracted as an oracle from image data to either
a reply text or an exception message.  A successful reply is stripped; an
exception is caught and replaced by the placeholder naming the slide. -/
def generateScriptFromImage (visionModel : String → Except String String)
    (imageData : String) (slideNumber : Nat) : String :=
  match visionModel imageData with
  | Except.ok t => pyStrip t
  | Except.error _ => couldNotGenerateMsg slideNumber

/-- The per-slide loop of `process_pptx` / `process_pptx_with_pdf`
(`generate_speaker_notes.py`, lines 170-173): slide `i` (0-based) gets a
script generated with display number `i + 1`. -/
def generateNotesList (visionModel : String → Except String String)
    (images : List String) : List String :=
  images.enum.map fun p => generateScriptFromImage visionModel p.2 (p.1 + 1)

/-- `generate_speaker_notes.py`, `add_notes_to_pptx`, lines 133-137:
the per-slide update of the notes text field.  If the existing text is
non-empty after stripping, the new note is appended after a blank line;
otherwise the notes text is set to the new note. -/
def applyNote (existing newNote : String) : String :=
  if pyStrip existing ≠ "" then existing ++ "\n\n" ++ newNote else newNote

/-- `generate_speaker_notes.py`, `add_notes_to_pptx`, lines 127-129:
the deck is modelled as the list of its slides' notes texts (empty
string when a slide has no notes).  `notes_list` is enumerated and the
entry at index `i` updates slide `i` when `i < len(prs.slides)`; extra
notes are dropped, remaining slides are untouched. -/
def addNotesToPptx : List String → List String → List String
  | slides, [] => slides
  | [], _ :: _ => []
  | s :: ss, n :: ns => applyNote s n :: addNotesToPptx ss ns

/-- The structure object consumed by the deck builder
(`generate_slides.py`, line 16): a title, an ordered agenda, and a
mapping from agenda-item text to the list of slide bodies, embedded as
an association list looked up with `List.lookup` (Python dict lookup). -/
structure LectureContent where
  title : String
  agenda : List String
  main : List (String × List String)

/-- A slide of the generated deck, modelled by the position of the
layout it was instantiated from (`prs.slide_masters[0].slide_layouts[i]`)
and the list of placeholder substitutions requested by index
(13 = header text, 14 = body text). -/
structure Slide where
  layoutIdx : Nat
  subs : List (Nat × String)
deriving DecidableEq

/-- Python `sep.join(strs)`. -/
def pyJoin (sep : String) : List String → String
  | [] => ""
  | [x] => x
  | x :: y :: rest => x ++ sep ++ pyJoin sep (y :: rest)

/-- The numbered agenda lines `f"{i+1}. {item}"`, numbering from `k`
(`generate_slides.py`, line 34, with `k = 1`). -/
def agendaLinesFrom (k : Nat) : List String → List String
  | [] => []
  | item :: rest => (decRepr k ++ ". " ++ item) :: agendaLinesFrom (k + 1) rest

/-- The agenda slide's body text (`generate_slides.py`, line 34):
one numbered line per agenda entry, joined with newlines. -/
def agendaText (agenda : List String) : String :=
  pyJoin "\n" (agendaLinesFrom 1 agenda)

/-- Slide 1 (`generate_slides.py`, lines 26-30): instantiated from
`slide_layouts[1]` (the `start` layout) with the title in placeholder 13. -/
def titleSlide (c : LectureContent) : Slide := ⟨1, [(13, c.title)]⟩

/-- Slide 2 (`generate_slides.py`, lines 32-39): instantiated from
`slide_layouts[0]` (the `main_template` layout) with a literal header in
placeholder 13 and the numbered agenda in placeholder 14. -/
def agendaSlide (c : LectureContent) : Slide :=
  ⟨0, [(13, "アジェンダ"), (14, agendaText c.agenda)]⟩

/-- A content slide (`generate_slides.py`, lines 47-53): instantiated
from `slide_layouts[0]` with the ordinal-plus-title header in
placeholder 13 and the body text in placeholder 14. -/
def contentSlide (num : Nat) (agendaTitle body : String) : Slide :=
  ⟨0, [(13, decRepr num ++ ". " ++ agendaTitle), (14, body)]⟩

/-- The closing slide (`generate_slides.py`, line 56): instantiated from
`slide_layouts[2]` (the `end` layout) with no substitutions. -/
def closingSlide : Slide := ⟨2, []⟩

/-- The content slides contributed by one enumerated agenda entry
(`generate_slides.py`, lines 42-53): one slide per body when the entry
text is a key of `main`, none otherwise. -/
def entrySlides (main : List (String × List String)) : Nat × String → List Slide :=
  fun p =>
    match main.lookup p.2 with
    | some bodies => bodies.map fun body => contentSlide (p.1 + 1) p.2 body
    | none => []

/-- `generate_slides.py`, `create_slides_from_json`, lines 26-56: the
deck built from a structure object — title slide, agenda slide, content
slides grouped by enumerated agenda entry, closing slide. -/
def createSlidesFromJson (c : LectureContent) : List Slide :=
  titleSlide c :: agendaSlide c ::
    (c.agenda.enum.flatMap (entrySlides c.main) ++ [closingSlide])

/-- Split a character sequence at newline characters, the embedding of
Python's `text.split("\n")`: n separators yield n + 1 pieces. -/
def splitLinesChars : List Char → List (List Char)
  | [] => [[]]
  | c :: rest =>
    if c = '\n' then [] :: splitLinesChars rest
    else (c :: (splitLinesChars rest).headD []) :: (splitLinesChars rest).tail

/-- The trivial re-parser for one emitted agenda line: drop the leading
run of decimal digits and the following ". " separator, leaving the
agenda item text; a line not of that form is kept unchanged. -/
def stripNumbering (line : String) : String :=
  if (line.data.dropWhile Char.isDigit).take 2 = ['.', ' '] then
    String.mk ((line.data.dropWhile Char.isDigit).drop 2)
  else line

/-- The trivial re-parser for the agenda slide's body text: empty text
yields no items; otherwise each line is stripped of its leading
numbering. -/
def reparseAgenda (s : String) : List String :=
  if s = "" then []
  else (splitLinesChars s.data).map fun cs => stripNumbering (String.mk cs)

/-- Substring containment test on character lists, the embedding of
Python's `'__MACOSX' in name`. -/
def containsSub (needle : List Char) : List Char → Bool
  | [] => needle.isPrefixOf []
  | c :: rest => needle.isPrefixOf (c :: rest) || containsSub needle rest

/-- Python `os.path.basename`: the part of the path after the last `/`. -/
def pyBasename (name : String) : String :=
  String.mk ((name.data.reverse.takeWhile (fun c => c ≠ '/')).reverse)

/-- Numeric value of a list of decimal digit characters, as read by
Python's `int(...)` on a regex match. -/
def digitsVal (cs : List Char) : Nat :=
  cs.foldl (fun acc c => acc * 10 + (c.toNat - '0'.toNat)) 0

/-- Embedding of `re.search(r'(\d+)', basename)` followed by `int(...)`:
the value of the first maximal run of decimal digits, if any digit occurs. -/
def firstNum : List Char → Option Nat
  | [] => none
  | c :: rest =>
      if c.isDigit then some (digitsVal (c :: rest.takeWhile Char.isDigit))
      else firstNum rest

/-- The filter applied to each zip entry name by `extract_images_from_zip`
(`generate_video.py`, lines 81-92): skip directory entries, macOS metadata
entries, hidden files, and anything without a `.jpeg`/`.jpg` extension. -/
def keepZipEntry (name : String) : Bool :=
  !("/".data.isSuffixOf name.data) &&
  !(containsSub "__MACOSX".data name.data) &&
  !(".".data.isPrefixOf (pyBasename name).data) &&
  (".jpeg".data.isSuffixOf (name.data.map Char.toLower) ||
   ".jpg".data.isSuffixOf (name.data.map Char.toLower))

/-- The slide number parsed from a zip entry's base filename
(`generate_video.py`, lines 94-96). -/
def zipImageKey (name : String) : Option Nat := firstNum (pyBasename name).data

/-- The `jpeg_files` list of `extract_images_from_zip`: each surviving
entry paired with its parsed slide number (`generate_video.py`, lines 79-97). -/
def keptJpegFiles (names : List String) : List (Nat × String) :=
  names.filterMap fun name =>
    if keepZipEntry name then (zipImageKey name).map fun num => (num, name)
    else none

/-- Stable insertion of an entry into a list sorted by slide number:
the new entry goes after all entries with a smaller-or-equal number. -/
def insertByNum (x : Nat × String) : List (Nat × String) → List (Nat × String)
  | [] => [x]
  | y :: ys => if x.1 < y.1 then x :: y :: ys else y :: insertByNum x ys

/-- Stable sort by slide number, the embedding of
`jpeg_files.sort(key=lambda x: x[0])` (`generate_video.py`, line 100).
Python's sort is stable; stable insertion sort computes the same list. -/
def sortByNum : List (Nat × String) → List (Nat × String)
  | [] => []
  | x :: xs => insertByNum x (sortByNum xs)

/-- `generate_video.py`, `extract_images_from_zip`, lines 63-109, at the
level of entry names: the kept entries in ascending slide-number order.
(The subsequent image loading preserves this order.) -/
def extractImagesFromZip (names : List String) : List String :=
  (sortByNum (keptJpegFiles names)).map Prod.snd

/-- `generate_video.py`, `extract_speaker_notes`, lines 36-61: each deck
slide is modelled by its raw notes text (`none` when the slide has no
notes slide or no text frame).  Non-empty text is stripped; text that is
empty, or empty after stripping, becomes `none`. -/
def extractSpeakerNotes (deck : List (Option String)) : List (Option String) :=
  deck.map fun raw =>
    match raw with
    | some t => if t = "" then none else if pyStrip t = "" then none else some (pyStrip t)
    | none => none

/-- External effects of the video generator, recorded symbolically:
a TTS request, a per-slide ffmpeg encode (with or without audio), and
the final ffmpeg concatenation. -/
inductive ExtCall
  | tts : String → ExtCall
  | slideVideo : Bool → ExtCall
  | videoConcat : ExtCall
deriving DecidableEq

/-- Failure message when the zip archive yields no images
(`generate_video.py`, line 297). -/
def noImagesMsg : String :=
  "ZIPファイルにスライド画像が見つかりません（スライド1.jpeg, スライド2.jpeg...の形式で保存してください）"

/-- Failure message when notes count and image count differ
(`generate_video.py`, line 300). -/
def mismatchMsg (np ni : Nat) : String :=
  "スライド数が一致しません（PPTX: " ++ decRepr np ++ "枚, ZIP: " ++ decRepr ni ++ "枚）"

/-- Success message (`generate_video.py`, line 352). -/
def completeMsg (n : Nat) : String :=
  "講義動画生成完了！ " ++ decRepr n ++ "枚のスライドを処理しました。"

/-- The external calls issued by the per-slide loop of `generate_video`
(`generate_video.py`, lines 309-341): a slide with notes gets a TTS call
and an audio mux; a slide without notes gets a silent 3-second clip and
no TTS call. -/
def perSlideCalls (notes : List (Option String)) : List ExtCall :=
  notes.flatMap fun note =>
    match note with
    | some t => [ExtCall.tts t, ExtCall.slideVideo true]
    | none => [ExtCall.slideVideo false]

/-- Result of `generate_video`: the (success flag, message) pair the
caller receives, plus the trace of external calls issued. -/
structure VideoResult where
  success : Bool
  message : String
  calls : List ExtCall
deriving DecidableEq

/-- `generate_video.py`, `generate_video`, lines 263-355: extract notes
and images, fail fast when the archive yields no images or the counts
differ, otherwise process every (image, note) pair and concatenate. -/
def generateVideo (deck : List (Option String)) (zipNames : List String) :
    VideoResult :=
  let speakerNotes := extractSpeakerNotes deck
  let images := extractImagesFromZip zipNames
  if images.length = 0 then
    ⟨false, noImagesMsg, []⟩
  else if speakerNotes.length ≠ images.length then
    ⟨false, mismatchMsg speakerNotes.length images.length, []⟩
  else
    ⟨true, completeMsg images.length,
      perSlideCalls ((images.zip speakerNotes).map Prod.snd) ++ [ExtCall.videoConcat]⟩

end SlideGen

namespace SlideGen

theorem pyStrip_empty : pyStrip "" = "" := rfl

theorem applyNote_of_strip_ne (t b : String) (h : pyStrip t ≠ "") :
    applyNote t b = t ++ "\n\n" ++ b := by
  simp [applyNote, h]

theorem applyNote_of_strip_eq (t b : String) (h : pyStrip t = "") :
    applyNote t b = b := by
  simp [applyNote, h]

theorem addNotesToPptx_length (slides notesList : List String) :
    (addNotesToPptx slides notesList).length = slides.length := by
  induction slides generalizing notesList with
  | nil => cases notesList <;> rfl
  | cons s ss ih =>
    cases notesList with
    | nil => rfl
    | cons n ns => simp [addNotesToPptx, ih]

theorem addNotesToPptx_getD (slides notesList : List String) (i : Nat)
    (h1 : i < notesList.length) (h2 : i < slides.length) :
    (addNotesToPptx slides notesList).getD i "" =
      applyNote (slides.getD i "") (notesList.getD i "") := by
  induction slides generalizing notesList i with
  | nil => simp at h2
  | cons s ss ih =>
    cases notesList with
    | nil => simp at h1
    | cons n ns =>
      cases i with
      | zero => rfl
      | succ j =>
        simp only [addNotesToPptx, List.getD_cons_succ]
        exact ih ns j (by simpa using h1) (by simpa using h2)

theorem addNotesToPptx_getD_of_le (slides notesList : List String) (i : Nat)
    (h : notesList.length ≤ i) :
    (addNotesToPptx slides notesList).getD i "" = slides.getD i "" := by
  induction slides generalizing notesList i with
  | nil => cases notesList <;> rfl
  | cons s ss ih =>
    cases notesList with
    | nil => rfl
    | cons n ns =>
      cases i with
      | zero => simp at h
      | succ j =>
        simp only [addNotesToPptx, List.getD_cons_succ]
        exact ih ns j (by simpa using h)

/-- C4 counterexample: the claim quantifies over every slide whose notes
field contains non-empty text `T`.  For the non-empty, whitespace-only
text `T = " "` with `B = "B"`, the write-back produces `"B"`, not
`" \n\nB"` as the claim requires. -/
theorem C4_counterexample :
    (" " : String) ≠ "" ∧ applyNote " " "B" ≠ " " ++ "\n\n" ++ "B" := by
  constructor
  · decide
  · show applyNote " " "B" ≠ " \n\nB"
    decide

/-- C4 (amended): for every slide whose existing notes text is non-empty
AFTER STRIPPING WHITESPACE, the resulting notes text is the existing
text, a blank line, then the new note; a slide with empty notes text is
set to the new note alone; in particular a slide pre-populated with
"A" receiving "B" ends with "A\n\nB". -/
theorem C4_notes_append (t b : String) (h : pyStrip t ≠ "") :
    applyNote t b = t ++ "\n\n" ++ b ∧
      applyNote "" b = b ∧
      addNotesToPptx ["A"] ["B"] = ["A" ++ "\n\n" ++ "B"] := by
  refine ⟨applyNote_of_strip_ne t b h, applyNote_of_strip_eq "" b rfl, ?_⟩
  decide

/-- Witness for C4: the amended statement holds at `t = "A"`, `b = "B"`. -/
theorem C4_notes_append_witness :
    applyNote "A" "B" = "A" ++ "\n\n" ++ "B" ∧
      applyNote "" "B" = "B" ∧
      addNotesToPptx ["A"] ["B"] = ["A" ++ "\n\n" ++ "B"] :=
  C4_notes_append "A" "B" (by decide)

/-- C5: `add_notes_to_pptx` updates the slide at 0-based index `i` with
`notes_list[i]` for every `i` below both lengths, silently drops notes
entries at or beyond the slide count (the output deck keeps its length),
and leaves slides at or beyond the notes-list length untouched. -/
theorem C5_positional_writeback (slides notesList : List String) (i : Nat) :
    (addNotesToPptx slides notesList).length = slides.length ∧
      (i < notesList.length → i < slides.length →
        (addNotesToPptx slides notesList).getD i "" =
          applyNote (slides.getD i "") (notesList.getD i "")) ∧
      (notesList.length ≤ i →
        (addNotesToPptx slides notesList).getD i "" = slides.getD i "") := by
  refine ⟨addNotesToPptx_length slides notesList, ?_, ?_⟩
  · intro h1 h2
    exact addNotesToPptx_getD slides notesList i h1 h2
  · intro h
    exact addNotesToPptx_getD_of_le slides notesList i h

/-- Witness for C5: a two-slide deck receiving three notes entries keeps
two slides, and slide 0 is updated with the first notes entry. -/
theorem C5_positional_writeback_witness :
    (addNotesToPptx ["", "x"] ["a", "b", "c"]).length = 2 ∧
      (addNotesToPptx ["", "x"] ["a", "b", "c"]).getD 0 "" =
        applyNote ((["", "x"] : List String).getD 0 "")
          ((["a", "b", "c"] : List String).getD 0 "") :=
  ⟨(C5_positional_writeback ["", "x"] ["a", "b", "c"] 0).1,
    (C5_positional_writeback ["", "x"] ["a", "b", "c"] 0).2.1
      (by decide) (by decide)⟩

/-- C10: a slide whose existing notes text is non-empty but whitespace-only
is overwritten with the new note (no separator), because the branch is
chosen by the stripped text being non-empty. -/
theorem C10_whitespace_notes_overwritten (t b : String)
    (hne : t ≠ "") (hws : pyStrip t = "") :
    applyNote t b = b :=
  applyNote_of_strip_eq t b hws

/-- Witness for C10: the whitespace-only text `" "` is overwritten. -/
theorem C10_whitespace_notes_overwritten_witness :
    applyNote " " "B" = "B" :=
  C10_whitespace_notes_overwritten " " "B" (by decide) (by decide)

/-- C9: when the vision-model call for a slide image raises, the
per-slide generator returns the placeholder naming that slide instead of
propagating the exception, and the enclosing loop still produces one
notes entry per image, so the run is never aborted by one slide. -/
theorem C9_error_placeholder (visionModel : String → Except String String)
    (imageData : String) (slideNumber : Nat) (e : String)
    (h : visionModel imageData = Except.error e) :
    generateScriptFromImage visionModel imageData slideNumber =
        couldNotGenerateMsg slideNumber ∧
      ∀ images : List String,
        (generateNotesList visionModel images).length = images.length := by
  constructor
  · simp [generateScriptFromImage, h]
  · intro images
    simp [generateNotesList]

/-- Witness for C9: an oracle that always raises yields the placeholder. -/
theorem C9_error_placeholder_witness :
    generateScriptFromImage (fun _ => Except.error "boom") "img" 1 =
        couldNotGenerateMsg 1 ∧
      ∀ images : List String,
        (generateNotesList (fun _ => Except.error "boom") images).length =
          images.length :=
  C9_error_placeholder (fun _ => Except.error "boom") "img" 1 "boom" rfl

theorem append_ne_empty_of_left (a b : String) (h : a ≠ "") : a ++ b ≠ "" := by
  intro he
  apply h
  have hd : a.data ++ b.data = [] := by
    have := congrArg String.data he
    rwa [String.data_append] at this
  have ha : a.data = [] := (List.append_eq_nil.mp hd).1
  cases a
  cases ha
  rfl

theorem mismatchMsg_ne_empty (np ni : Nat) : mismatchMsg np ni ≠ "" := by
  unfold mismatchMsg
  exact append_ne_empty_of_left _ _
    (append_ne_empty_of_left _ _
      (append_ne_empty_of_left _ _
        (append_ne_empty_of_left _ _ (by decide))))

/-- C3: whenever the archive yields zero images, or the extracted notes
count differs from the extracted image count, `generate_video` returns a
failure flag with a non-empty message and issues no external call at all
(no TTS request, no per-slide encode, no concatenation), so no output
video is produced. -/
theorem C3_fail_fast (deck : List (Option String)) (zipNames : List String)
    (h : (extractImagesFromZip zipNames).length = 0 ∨
      (extractSpeakerNotes deck).length ≠ (extractImagesFromZip zipNames).length) :
    (generateVideo deck zipNames).success = false ∧
      (generateVideo deck zipNames).calls = [] ∧
      (generateVideo deck zipNames).message ≠ "" := by
  by_cases h0 : (extractImagesFromZip zipNames).length = 0
  · have : generateVideo deck zipNames = ⟨false, noImagesMsg, []⟩ := by
      simp [generateVideo, h0]
    rw [this]
    refine ⟨rfl, rfl, by decide⟩
  · have hne : (extractSpeakerNotes deck).length ≠ (extractImagesFromZip zipNames).length := by
      rcases h with h | h
      · exact absurd h h0
      · exact h
    have : generateVideo deck zipNames =
        ⟨false, mismatchMsg (extractSpeakerNotes deck).length
          (extractImagesFromZip zipNames).length, []⟩ := by
      simp [generateVideo, h0, hne]
    rw [this]
    exact ⟨rfl, rfl, mismatchMsg_ne_empty _ _⟩

/-- Witness for C3: a three-note deck against a two-image archive fails
with no external calls. -/
theorem C3_fail_fast_witness :
    (generateVideo [some "a", some "b", some "c"]
        ["slide1.jpeg", "slide2.jpeg"]).success = false ∧
      (generateVideo [some "a", some "b", some "c"]
        ["slide1.jpeg", "slide2.jpeg"]).calls = [] ∧
      (generateVideo [some "a", some "b", some "c"]
        ["slide1.jpeg", "slide2.jpeg"]).message ≠ "" :=
  C3_fail_fast [some "a", some "b", some "c"] ["slide1.jpeg", "slide2.jpeg"]
    (Or.inr (by decide))

theorem insertByNum_perm (x : Nat × String) (l : List (Nat × String)) :
    (insertByNum x l).Perm (x :: l) := by
  induction l with
  | nil => exact List.Perm.refl _
  | cons y ys ih =>
    unfold insertByNum
    split
    · exact List.Perm.refl _
    · exact (ih.cons y).trans (List.Perm.swap x y ys)

theorem sortByNum_perm (l : List (Nat × String)) : (sortByNum l).Perm l := by
  induction l with
  | nil => exact List.Perm.refl _
  | cons x xs ih =>
    exact (insertByNum_perm x (sortByNum xs)).trans (ih.cons x)

theorem insertByNum_pairwise (x : Nat × String) (l : List (Nat × String))
    (h : l.Pairwise (fun a b => a.1 ≤ b.1)) :
    (insertByNum x l).Pairwise (fun a b => a.1 ≤ b.1) := by
  induction l with
  | nil => simp [insertByNum]
  | cons y ys ih =>
    unfold insertByNum
    split
    · rename_i hlt
      refine List.Pairwise.cons ?_ h
      intro z hz
      rcases List.mem_cons.mp hz with hz | hz
      · exact hz ▸ Nat.le_of_lt hlt
      · exact Nat.le_trans (Nat.le_of_lt hlt) ((List.pairwise_cons.mp h).1 z hz)
    · rename_i hge
      rcases List.pairwise_cons.mp h with ⟨hy, hys⟩
      refine List.Pairwise.cons ?_ (ih hys)
      intro z hz
      rcases List.mem_cons.mp ((insertByNum_perm x ys).mem_iff.mp hz) with hz | hz
      · exact hz ▸ Nat.le_of_not_lt hge
      · exact hy z hz

theorem sortByNum_pairwise (l : List (Nat × String)) :
    (sortByNum l).Pairwise (fun a b => a.1 ≤ b.1) := by
  induction l with
  | nil => simp [sortByNum]
  | cons x xs ih => exact insertByNum_pairwise x (sortByNum xs) ih

theorem mem_keptJpegFiles (names : List String) (p : Nat × String)
    (hp : p ∈ keptJpegFiles names) : zipImageKey p.2 = some p.1 := by
  rcases List.mem_filterMap.mp hp with ⟨name, _, hname⟩
  by_cases hk : keepZipEntry name
  · rw [if_pos hk] at hname
    rcases Option.map_eq_some'.mp hname with ⟨num, hnum, hpair⟩
    rw [← hpair]
    exact hnum
  · rw [if_neg hk] at hname
    exact absurd hname (by simp)

theorem keptJpegFiles_map_snd (names : List String) :
    (keptJpegFiles names).map Prod.snd =
      names.filter fun n => keepZipEntry n && (zipImageKey n).isSome := by
  induction names with
  | nil => rfl
  | cons n ns ih =>
    unfold keptJpegFiles at ih ⊢
    by_cases hk : keepZipEntry n
    · cases hz : zipImageKey n with
      | none => simp [List.filterMap_cons, hk, hz, List.filter_cons, ih]
      | some num => simp [List.filterMap_cons, hk, hz, List.filter_cons, ih]
    · simp [List.filterMap_cons, hk, List.filter_cons, ih]

/-- C6: for every list of zip entry names, the extractor keeps exactly
the entries passing the directory/metadata/hidden/extension filter whose
base filename contains a digit, ordered ascending by the value of the
first digit run; in particular "slide2.jpeg" is ordered before
"slide10.jpeg" despite the opposite textual order. -/
theorem C6_zip_extraction :
    (∀ names : List String,
      (extractImagesFromZip names).Perm
          (names.filter fun n => keepZipEntry n && (zipImageKey n).isSome) ∧
        (extractImagesFromZip names).Pairwise
          (fun a b => (zipImageKey a).getD 0 ≤ (zipImageKey b).getD 0)) ∧
      extractImagesFromZip ["slide10.jpeg", "slide2.jpeg"] =
        ["slide2.jpeg", "slide10.jpeg"] := by
  constructor
  · intro names
    constructor
    · have h1 : (extractImagesFromZip names).Perm
          ((keptJpegFiles names).map Prod.snd) :=
        (sortByNum_perm (keptJpegFiles names)).map Prod.snd
      rw [keptJpegFiles_map_snd] at h1
      exact h1
    · unfold extractImagesFromZip
      rw [List.pairwise_map]
      refine List.Pairwise.imp_of_mem ?_ (sortByNum_pairwise (keptJpegFiles names))
      intro a b ha hb hle
      have ha' := mem_keptJpegFiles names a ((sortByNum_perm _).mem_iff.mp ha)
      have hb' := mem_keptJpegFiles names b ((sortByNum_perm _).mem_iff.mp hb)
      rw [ha', hb']
      exact hle
  · decide

theorem entrySlides_length (main : List (String × List String)) (p : Nat × String) :
    (entrySlides main p).length = ((main.lookup p.2).getD []).length := by
  unfold entrySlides
  cases main.lookup p.2 with
  | none => rfl
  | some bodies => simp

theorem flatMap_entrySlides_length (main : List (String × List String))
    (l : List String) (k : Nat) :
    ((List.enumFrom k l).flatMap (entrySlides main)).length =
      (((l.filter fun a => (main.lookup a).isSome).map
        fun a => ((main.lookup a).getD []).length).sum) := by
  induction l generalizing k with
  | nil => rfl
  | cons a as ih =>
    rw [List.enumFrom_cons, List.flatMap_cons, List.length_append,
      entrySlides_length, ih (k + 1)]
    cases hm : main.lookup a with
    | none => simp [List.filter_cons, hm]
    | some bodies => simp [List.filter_cons, hm]

/-- C1: the deck built from a structure object has exactly
`2 + 1 + Σ len(main[a]) for a in agenda with a a key of main` slides;
slide 1 is the title slide, slide 2 the agenda slide, and the last
slide the closing slide. -/
theorem C1_deck_shape (c : LectureContent) :
    (createSlidesFromJson c).length =
        2 + 1 + (((c.agenda.filter fun a => (c.main.lookup a).isSome).map
          fun a => ((c.main.lookup a).getD []).length).sum) ∧
      (createSlidesFromJson c).head? = some (titleSlide c) ∧
      (createSlidesFromJson c)[1]? = some (agendaSlide c) ∧
      (createSlidesFromJson c).getLast? = some closingSlide := by
  refine ⟨?_, rfl, by unfold createSlidesFromJson; simp, ?_⟩
  · unfold createSlidesFromJson
    rw [List.length_cons, List.length_cons, List.length_append,
      List.enum_eq_enumFrom, flatMap_entrySlides_length]
    simp
    omega
  · show (titleSlide c :: agendaSlide c ::
        c.agenda.enum.flatMap (entrySlides c.main) ++ [closingSlide]).getLast? =
      some closingSlide
    exact List.getLast?_concat _

theorem entrySlides_layoutIdx (main : List (String × List String))
    (p : Nat × String) (s : Slide) (hs : s ∈ entrySlides main p) :
    s.layoutIdx = 0 := by
  unfold entrySlides at hs
  cases hm : main.lookup p.2 with
  | none => rw [hm] at hs; simp at hs
  | some bodies =>
    rw [hm] at hs
    rcases List.mem_map.mp hs with ⟨body, _, hb⟩
    rw [← hb]
    rfl

/-- C2 counterexample: on the structure object
`{title := "T", agenda := ["A"], main := {"A" ↦ ["b"]}}` the title slide
is instantiated from the layout at position 1 (not 0), and the content
slide at index 2 from the layout at position 0 (not 1), refuting the
claimed 0/1/2 = title/content/closing assignment. -/
theorem C2_counterexample :
    ((createSlidesFromJson ⟨"T", ["A"], [("A", ["b"])]⟩).head?.map
        Slide.layoutIdx) ≠ some 0 ∧
      ((createSlidesFromJson ⟨"T", ["A"], [("A", ["b"])]⟩)[2]?.map
        Slide.layoutIdx) ≠ some 1 := by
  decide

/-- C2 (amended): the deck builder takes its three layouts from the
template master at fixed positions 0, 1 and 2 in the order CONTENT,
TITLE, CLOSING: the title slide is instantiated from the layout at
position 1, every content slide and the agenda slide from the layout at
position 0, and the closing slide from the layout at position 2. -/
theorem C2_layout_positions (c : LectureContent) :
    ((createSlidesFromJson c).head?.map Slide.layoutIdx) = some 1 ∧
      ((createSlidesFromJson c).getLast?.map Slide.layoutIdx) = some 2 ∧
      ∀ s ∈ (createSlidesFromJson c).tail.dropLast, s.layoutIdx = 0 := by
  refine ⟨rfl, ?_, ?_⟩
  · have : (createSlidesFromJson c).getLast? = some closingSlide :=
      (C1_deck_shape c).2.2.2
    rw [this]
    rfl
  · intro s hs
    have htail : (createSlidesFromJson c).tail.dropLast =
        agendaSlide c :: c.agenda.enum.flatMap (entrySlides c.main) := by
      show ((agendaSlide c :: c.agenda.enum.flatMap (entrySlides c.main)) ++
        [closingSlide]).dropLast = _
      exact List.dropLast_concat
    rw [htail] at hs
    rcases List.mem_cons.mp hs with hs | hs
    · rw [hs]; rfl
    · rcases List.mem_flatMap.mp hs with ⟨p, _, hp⟩
      exact entrySlides_layoutIdx c.main p s hp

theorem flatMap_eraseIdx_of_eq_nil {α β : Type} (l : List α) (f : α → List β)
    (i : Nat) (x : α) (hx : l[i]? = some x) (hfx : f x = []) :
    l.flatMap f = (l.eraseIdx i).flatMap f := by
  induction l generalizing i with
  | nil => simp at hx
  | cons y ys ih =>
    cases i with
    | zero =>
      have hy : y = x := by simpa using hx
      rw [List.eraseIdx_cons_zero, List.flatMap_cons, hy, hfx]
      rfl
    | succ j =>
      rw [List.eraseIdx_cons_succ, List.flatMap_cons, List.flatMap_cons,
        ih j (by simpa using hx)]

/-- C7: an agenda entry whose text is not a key of `main` contributes
zero content slides and raises no error: the deck equals the one whose
content part is built from the enumerated agenda with that entry erased,
so all other entries' slides (with their original ordinals) are
unaffected. -/
theorem C7_missing_key (c : LectureContent) (i : Nat) (a : String)
    (hi : c.agenda[i]? = some a) (hm : c.main.lookup a = none) :
    createSlidesFromJson c =
      titleSlide c :: agendaSlide c ::
        ((c.agenda.enum.eraseIdx i).flatMap (entrySlides c.main) ++
          [closingSlide]) := by
  unfold createSlidesFromJson
  have hx : c.agenda.enum[i]? = some (i, a) := by
    rw [List.getElem?_enum, hi]
    rfl
  have hfx : entrySlides c.main (i, a) = [] := by
    unfold entrySlides
    rw [hm]
  rw [flatMap_eraseIdx_of_eq_nil c.agenda.enum (entrySlides c.main) i (i, a) hx hfx]

/-- Witness for C7: the agenda entry "A" of
`{title := "T", agenda := ["A", "B"], main := {"B" ↦ ["x"]}}` is not a
key of `main` and contributes no content slide. -/
theorem C7_missing_key_witness :
    createSlidesFromJson ⟨"T", ["A", "B"], [("B", ["x"])]⟩ =
      titleSlide ⟨"T", ["A", "B"], [("B", ["x"])]⟩ ::
        agendaSlide ⟨"T", ["A", "B"], [("B", ["x"])]⟩ ::
        (((⟨"T", ["A", "B"], [("B", ["x"])]⟩ :
            LectureContent).agenda.enum.eraseIdx 0).flatMap
          (entrySlides [("B", ["x"])]) ++ [closingSlide]) :=
  C7_missing_key ⟨"T", ["A", "B"], [("B", ["x"])]⟩ 0 "A" rfl rfl

theorem mk_data (s : String) : String.mk s.data = s := by
  cases s
  rfl

theorem decDigit_isDigit : ∀ d : Nat, (decDigit d).isDigit = true
  | 0 | 1 | 2 | 3 | 4 | 5 | 6 | 7 | 8 => rfl
  | _ + 9 => rfl

theorem decDigitsCore_all_digit (fuel : Nat) :
    ∀ n : Nat, ∀ c ∈ decDigitsCore fuel n, c.isDigit = true := by
  induction fuel with
  | zero => intro n c hc; simp [decDigitsCore] at hc
  | succ f ih =>
    intro n c hc
    unfold decDigitsCore at hc
    split at hc
    · rw [List.mem_singleton] at hc
      exact hc ▸ decDigit_isDigit n
    · rcases List.mem_append.mp hc with h | h
      · exact ih (n / 10) c h
      · rw [List.mem_singleton] at h
        exact h ▸ decDigit_isDigit (n % 10)

theorem decDigits_all_digit (n : Nat) : ∀ c ∈ decDigits n, c.isDigit = true :=
  decDigitsCore_all_digit (n + 1) n

theorem decDigits_ne_nil (n : Nat) : decDigits n ≠ [] := by
  unfold decDigits decDigitsCore
  split
  · simp
  · simp

theorem decRepr_ne_empty (n : Nat) : decRepr n ≠ "" := by
  intro h
  exact decDigits_ne_nil n (congrArg String.data h)

theorem splitLinesChars_cons_eq (c : Char) (rest : List Char) :
    splitLinesChars (c :: rest) =
      if c = '\n' then [] :: splitLinesChars rest
      else (c :: (splitLinesChars rest).headD []) ::
        (splitLinesChars rest).tail := rfl

theorem splitLinesChars_no_newline (l : List Char) (h : '\n' ∉ l) :
    splitLinesChars l = [l] := by
  induction l with
  | nil => rfl
  | cons c cs ih =>
    have hc : c ≠ '\n' := fun he => h (he ▸ List.mem_cons_self c cs)
    have hcs : '\n' ∉ cs := fun hm => h (List.mem_cons_of_mem c hm)
    rw [splitLinesChars_cons_eq, if_neg hc, ih hcs]
    rfl

theorem splitLinesChars_append (l1 l2 : List Char) (h : '\n' ∉ l1) :
    splitLinesChars (l1 ++ '\n' :: l2) = l1 :: splitLinesChars l2 := by
  induction l1 with
  | nil =>
    show splitLinesChars ('\n' :: l2) = [] :: splitLinesChars l2
    rw [splitLinesChars_cons_eq, if_pos rfl]
  | cons c cs ih =>
    have hc : c ≠ '\n' := fun he => h (he ▸ List.mem_cons_self c cs)
    have hcs : '\n' ∉ cs := fun hm => h (List.mem_cons_of_mem c hm)
    show splitLinesChars (c :: (cs ++ '\n' :: l2)) = _
    rw [splitLinesChars_cons_eq, if_neg hc, ih hcs]
    rfl

theorem splitLines_pyJoin (lines : List String) (hne : lines ≠ [])
    (h : ∀ s ∈ lines, '\n' ∉ s.data) :
    splitLinesChars (pyJoin "\n" lines).data = lines.map String.data := by
  induction lines with
  | nil => exact absurd rfl hne
  | cons x xs ih =>
    cases xs with
    | nil =>
      show splitLinesChars x.data = [x.data]
      exact splitLinesChars_no_newline x.data (h x (by simp))
    | cons y rest =>
      have hx : '\n' ∉ x.data := h x (by simp)
      have hd : (pyJoin "\n" (x :: y :: rest)).data =
          x.data ++ '\n' :: (pyJoin "\n" (y :: rest)).data := by
        show ((x ++ "\n") ++ pyJoin "\n" (y :: rest)).data = _
        rw [String.data_append, String.data_append]
        simp
      rw [hd, splitLinesChars_append x.data _ hx,
        ih (by simp) (fun s hs => h s (List.mem_cons_of_mem x hs))]
      rfl

theorem dropWhile_isDigit_digits_append (l1 rest : List Char)
    (h : ∀ c ∈ l1, c.isDigit = true) :
    (l1 ++ '.' :: rest).dropWhile Char.isDigit = '.' :: rest := by
  induction l1 with
  | nil =>
    show List.dropWhile Char.isDigit ('.' :: rest) = '.' :: rest
    rw [List.dropWhile_cons]
    simp
  | cons c cs ih =>
    have hc := h c (by simp)
    rw [List.cons_append, List.dropWhile_cons, if_pos (by simp [hc])]
    exact ih (fun c' hc' => h c' (List.mem_cons_of_mem c hc'))

theorem line_data (k : Nat) (item : String) :
    (decRepr k ++ ". " ++ item).data = decDigits k ++ '.' :: ' ' :: item.data := by
  rw [String.data_append, String.data_append]
  show (decDigits k ++ ['.', ' ']) ++ item.data = _
  simp

theorem stripNumbering_line (k : Nat) (item : String) :
    stripNumbering (decRepr k ++ ". " ++ item) = item := by
  unfold stripNumbering
  rw [line_data, dropWhile_isDigit_digits_append _ _ (decDigits_all_digit k)]
  simp [mk_data]

theorem line_no_newline (k : Nat) (item : String) (h : '\n' ∉ item.data) :
    '\n' ∉ (decRepr k ++ ". " ++ item).data := by
  rw [line_data]
  intro hm
  rcases List.mem_append.mp hm with hm | hm
  · have := decDigits_all_digit k '\n' hm
    simp [Char.isDigit] at this
  · rcases List.mem_cons.mp hm with hm | hm
    · exact absurd hm (by decide)
    · rcases List.mem_cons.mp hm with hm | hm
      · exact absurd hm (by decide)
      · exact h hm

theorem agendaLinesFrom_no_newline (agenda : List String)
    (h : ∀ item ∈ agenda, '\n' ∉ item.data) :
    ∀ k : Nat, ∀ s ∈ agendaLinesFrom k agenda, '\n' ∉ s.data := by
  induction agenda with
  | nil => intro k s hs; simp [agendaLinesFrom] at hs
  | cons a as ih =>
    intro k s hs
    rcases List.mem_cons.mp hs with hs | hs
    · exact hs ▸ line_no_newline k a (h a (by simp))
    · exact ih (fun item hi => h item (List.mem_cons_of_mem a hi)) (k + 1) s hs

theorem agendaLinesFrom_strip (agenda : List String) :
    ∀ k : Nat, (agendaLinesFrom k agenda).map stripNumbering = agenda := by
  induction agenda with
  | nil => intro k; rfl
  | cons a as ih =>
    intro k
    show stripNumbering (decRepr k ++ ". " ++ a) ::
      (agendaLinesFrom (k + 1) as).map stripNumbering = a :: as
    rw [stripNumbering_line, ih (k + 1)]

theorem agendaText_ne_empty (agenda : List String) (hne : agenda ≠ []) :
    agendaText agenda ≠ "" := by
  cases agenda with
  | nil => exact absurd rfl hne
  | cons a as =>
    cases as with
    | nil =>
      show decRepr 1 ++ ". " ++ a ≠ ""
      exact append_ne_empty_of_left _ _
        (append_ne_empty_of_left _ _ (decRepr_ne_empty 1))
    | cons b rest =>
      show (decRepr 1 ++ ". " ++ a) ++ "\n" ++
        pyJoin "\n" (agendaLinesFrom 2 (b :: rest)) ≠ ""
      exact append_ne_empty_of_left _ _
        (append_ne_empty_of_left _ _
          (append_ne_empty_of_left _ _
            (append_ne_empty_of_left _ _ (decRepr_ne_empty 1))))

/-- C8 counterexample: the claim quantifies over every agenda list, but
for the single-item agenda `["a\nb"]` the emitted agenda-slide text is
`"1. a\nb"`, which the line-based re-parser reads back as two items
`["a", "b"]`, not the original list. -/
theorem C8_counterexample :
    reparseAgenda (agendaText ["a\nb"]) ≠ ["a\nb"] := by
  decide

/-- C8 (amended): for every agenda list whose entries contain no newline
character, parsing the deck builder's emitted agenda-slide body text
(one `"<i>. <item>"` line per entry, numbered 1..N in input order) with
the re-parser that strips the leading numbering from each line
reconstructs the original ordered agenda list. -/
theorem C8_agenda_roundtrip (agenda : List String)
    (h : ∀ item ∈ agenda, '\n' ∉ item.data) :
    reparseAgenda (agendaText agenda) = agenda := by
  cases agenda with
  | nil => rfl
  | cons a as =>
    unfold reparseAgenda
    rw [if_neg (agendaText_ne_empty (a :: as) (by simp))]
    unfold agendaText
    rw [splitLines_pyJoin _ (by simp [agendaLinesFrom])
      (agendaLinesFrom_no_newline (a :: as) h 1)]
    rw [List.map_map]
    have : ((fun cs => stripNumbering (String.mk cs)) ∘ String.data) =
        stripNumbering := by
      funext s
      simp [Function.comp, mk_data]
    rw [this]
    exact agendaLinesFrom_strip (a :: as) 1

/-- Witness for C8: the newline-free agenda `["Intro", "Body"]` round
trips through the emitted text. -/
theorem C8_agenda_roundtrip_witness :
    reparseAgenda (agendaText ["Intro", "Body"]) = ["Intro", "Body"] :=
  C8_agenda_roundtrip ["Intro", "Body"] (by decide)

end SlideGen
